import Mathlib

set_option maxHeartbeats 1000000

/-!
A shallow embedding of the notion-go HTTP client pipeline.

The embedding covers:

* `client/client.go`: the generic request/response pipeline
  (`Client.Do`, `Client.newRequest`, `Client.do`, `Client.encode`,
  `Client.decode`) together with its three error kinds
  (`LocalError`, `TransportError`, `ApplicationError`);
* the parts of the Go standard library the pipeline leans on:
  `http.NewRequest` method validation (`net/http` token check),
  `url.Values.Encode` / `url.QueryEscape`, and the `json.Marshal`
  treatment of a nil value;
* `notion/error.go` (`parseErrorFromResponse`, `ApiServerError`) and
  `notion/notion.go` (`decodeResponse`) with the notion-package error
  kinds (`ApplicationError` with status code, `ClientError`).

Go's reflection-driven JSON (de)serialization of `interface{}` targets is
modelled by explicit encoder/decoder parameters: a decoder `β → Except String τ`
stands for `json.Decode` into a target of type `τ` from a body of type `β`, and
is modelled as atomic (on failure the target keeps its previous value).
Caller-supplied pointer targets are modelled by threading the target values
through the call: the result records the final value of both targets, so that
"the target was not mutated" is expressible as equality with the initial value.
The result additionally records how many times the transport capability and the
JSON decoder were invoked, mirroring what the repository's own mock transport
observes in its tests.
-/

namespace NotionGo

/-- UTF-8 encoding of a character as its list of bytes (as `Nat`s below 256).
Go strings are byte strings; `url.QueryEscape` walks the UTF-8 bytes. -/
def utf8EncodeCharNat (c : Char) : List Nat :=
  let n := c.toNat
  if n < 128 then [n]
  else if n < 2048 then [192 + n / 64, 128 + n % 64]
  else if n < 65536 then [224 + n / 4096, 128 + (n / 64) % 64, 128 + n % 64]
  else [240 + n / 262144, 128 + (n / 4096) % 64, 128 + (n / 64) % 64, 128 + n % 64]

/-- The bytes of a string, via UTF-8. -/
def stringBytes (s : String) : List Nat :=
  s.data.flatMap utf8EncodeCharNat

/-- Upper-case hexadecimal digit for a value below 16, as in Go's
`net/url` escape table "0123456789ABCDEF". -/
def hexUpperDigit (n : Nat) : Char :=
  if n < 10 then Char.ofNat (48 + n) else Char.ofNat (55 + n)

/-- Go `net/url.shouldEscape` for `encodeQueryComponent`: alphanumeric bytes
and `-`, `_`, `.`, `~` stay unescaped, every other byte is escaped. -/
def shouldEscape (c : Nat) : Bool :=
  !((97 ≤ c && c ≤ 122) || (65 ≤ c && c ≤ 90) || (48 ≤ c && c ≤ 57) ||
    c == 45 || c == 95 || c == 46 || c == 126)

/-- Escaping of one byte in a query component: unescaped bytes pass through,
space becomes `+`, anything else becomes `%XX` with upper-case hex. -/
def escapeByte (c : Nat) : String :=
  if shouldEscape c then
    if c == 32 then "+"
    else String.mk [Char.ofNat 37, hexUpperDigit (c / 16), hexUpperDigit (c % 16)]
  else String.mk [Char.ofNat c]

/-- Go `net/url.QueryEscape`: escape every byte of the UTF-8 encoding. -/
def queryEscape (s : String) : String :=
  String.join ((stringBytes s).map escapeByte)

/-- Key ordering used by `url.Values.Encode`, which sorts the keys before
emitting `key=value` pairs. -/
def keyLe (p q : String × String) : Prop := p.1 ≤ q.1

instance : DecidableRel keyLe := fun p q => inferInstanceAs (Decidable (p.1 ≤ q.1))

instance : IsTotal (String × String) keyLe := ⟨fun p q => le_total p.1 q.1⟩

instance : IsTrans (String × String) keyLe := ⟨fun _ _ _ h h2 => le_trans h h2⟩

/-- Strict version of `keyLe`; antisymmetric (vacuously), used to show the
sorted pair list is unique when keys are distinct. -/
def keyLt (p q : String × String) : Prop := p.1 < q.1

instance : IsAntisymm (String × String) keyLt :=
  ⟨fun _ _ h h2 => absurd (lt_trans h h2) (lt_irrefl _)⟩

/-- The `key=value` components of `url.Values.Encode`, in sorted key order.
The query always originates from a Go `map[string]string` (unique keys, one
value per key), so `url.Values` holds a singleton value list per key and
`Encode` reduces to sorting the pairs by key and escaping each side. -/
def queryComponents (query : List (String × String)) : List String :=
  (List.insertionSort keyLe query).map fun kv => queryEscape kv.1 ++ "=" ++ queryEscape kv.2

/-- Go `url.Values.Encode` on the values built by `q.Add k v` for each entry
of the query map: sorted `key=value` pairs joined with `&`. -/
def urlValuesEncode (query : List (String × String)) : String :=
  String.intercalate "&" (queryComponents query)

/-- Go `httpguts.IsTokenRune`: the characters legal in an HTTP method token
(RFC 7230 tchar): digits, letters and `!#$%&'*+-.^_` backtick `|~`. -/
def isTokenChar (c : Char) : Bool :=
  (48 ≤ c.toNat && c.toNat ≤ 57) || (65 ≤ c.toNat && c.toNat ≤ 90) ||
  (97 ≤ c.toNat && c.toNat ≤ 122) ||
  [33, 35, 36, 37, 38, 39, 42, 43, 45, 46, 94, 95, 96, 124, 126].contains c.toNat

/-- Go `net/http.validMethod`: nonempty and all token characters. -/
def validMethod (m : String) : Bool :=
  m.length > 0 && m.data.all isTokenChar

/-- Approximation of Go `%q` quoting used in the `net/http` invalid-method
error message (exact escaping of non-printable characters is not modelled). -/
def goQuote (s : String) : String := "\"" ++ s ++ "\""

/-- An in-memory HTTP request as built by `http.NewRequest` plus the mutations
`Client.newRequest` performs on it. Only the parts the pipeline touches are
modelled. `Body` is `none` when the request carries no body. -/
structure Request where
  Method : String
  URL : String
  RawQuery : String
  Header : List (String × String)
  Body : Option String
  deriving DecidableEq, Repr

/-- `req.URL.String()`: the URL with the encoded query appended, as reported
by `TransportError`. -/
def Request.urlString (r : Request) : String :=
  if r.RawQuery = "" then r.URL else r.URL ++ "?" ++ r.RawQuery

/-- Go `http.NewRequest(method, url, body)`: an empty method defaults to GET,
an invalid method is rejected with `net/http: invalid method %q`; the body
reader handed in by `Client.encode` is always non-nil, so the request always
carries it. (URL parsing, which only fails on malformed control input, is not
modelled.) -/
def httpNewRequest (method url : String) (body : String) : Except String Request :=
  let m := if method = "" then "GET" else method
  if validMethod m then
    Except.ok { Method := m, URL := url, RawQuery := "", Header := [], Body := some body }
  else
    Except.error ("net/http: invalid method " ++ goQuote m)

/-- `client.LocalError`: a client-side error with a reason and an optional
wrapped cause. -/
structure LocalError where
  Reason : String
  Inner : Option String
  deriving DecidableEq, Repr

/-- `client.TransportError`: a failure to obtain any response, naming the
attempted URL and wrapping the cause. -/
structure TransportError where
  URL : String
  Inner : String
  deriving DecidableEq, Repr

/-- `client.ApplicationError`: wraps the single untyped field `v`, which at
construction is the (pointer to the) failure target. It has no status-code
field. -/
structure ApplicationError (φ : Type) where
  v : φ
  deriving DecidableEq, Repr

/-- The dynamic type of the `error` returned by `client.Client.Do`: one of the
three classified kinds. -/
inductive DoError (φ : Type) where
  | localE : LocalError → DoError φ
  | transportE : TransportError → DoError φ
  | applicationE : ApplicationError φ → DoError φ
  deriving DecidableEq, Repr

/-- `client.Options`. -/
structure Options where
  RootURL : String
  deriving DecidableEq, Repr

/-- An HTTP response: status code and a body value of type `β` (the body
stream, consumed once by the decoder). -/
structure Response (β : Type) where
  StatusCode : Int
  Body : β
  deriving DecidableEq, Repr

/-- `client.Client`: the injected HTTP transport capability and the options.
The transport either fails with a connectivity-level cause or yields a
response. -/
structure Client (β : Type) where
  httpClient : Request → Except String (Response β)
  opts : Options

/-- Go `json.Marshal` on the `body interface{}` argument: a nil interface
marshals to the four bytes `null`; a non-nil value uses its shape-specific
encoding, which can fail. -/
def jsonMarshal (enc : γ → Except String String) : Option γ → Except String String
  | none => Except.ok "null"
  | some v => enc v

/-- `client.Client.encode`: marshal the body and wrap the bytes in a reader
(the reader is just the marshalled string here). -/
def Client.encode (_c : Client β) (enc : γ → Except String String)
    (v : Option γ) : Except String String :=
  jsonMarshal enc v

/-- `client.Client.newRequest`: encode the body (failure ⇒ `LocalError`
"failed to encode the body"), build the request via `http.NewRequest`
(failure ⇒ `LocalError` "failed to create GET request"), append the encoded
query when nonempty, and set `Content-Type: application/json` exactly when the
caller supplied a body. -/
def Client.newRequest (c : Client β) (enc : γ → Except String String)
    (method path : String) (query : List (String × String)) (body : Option γ) :
    Except LocalError Request :=
  match c.encode enc body with
  | Except.error err => Except.error ⟨"failed to encode the body", some err⟩
  | Except.ok buf =>
    match httpNewRequest method (c.opts.RootURL ++ path) buf with
    | Except.error err => Except.error ⟨"failed to create GET request", some err⟩
    | Except.ok req =>
      let req := if query.length > 0 then { req with RawQuery := urlValuesEncode query } else req
      let req := if body.isSome then
          { req with Header := req.Header ++ [("Content-Type", "application/json")] }
        else req
      Except.ok req

/-- The observable outcome of one `Client.Do` call: the returned error (or
none), the final values of the two caller-owned targets, and how many times
the transport and the JSON decoder ran. -/
structure DoResult (σ φ : Type) where
  err : Option (DoError φ)
  targetSuccess : σ
  targetFailure : φ
  transportCalls : Nat
  decodeCalls : Nat
  deriving DecidableEq, Repr

/-- `client.Client.do`: perform the exchange; a transport failure returns a
`TransportError` naming `r.URL.String()`; a status at most 300 decodes into
the success target (decode failure ⇒ `LocalError`), a status above 300 decodes
into the failure target (decode failure ⇒ `LocalError`, success ⇒
`ApplicationError` wrapping the failure target). -/
def Client.doExchange (c : Client β) (decS : β → Except String σ)
    (decF : β → Except String φ) (r : Request)
    (targetSuccess : σ) (targetFailure : φ) : DoResult σ φ :=
  match c.httpClient r with
  | Except.error err =>
    ⟨some (DoError.transportE ⟨r.urlString, err⟩), targetSuccess, targetFailure, 1, 0⟩
  | Except.ok resp =>
    if resp.StatusCode ≤ 300 then
      match decS resp.Body with
      | Except.error err =>
        ⟨some (DoError.localE ⟨"can\x27t decode successful response", some err⟩),
          targetSuccess, targetFailure, 1, 1⟩
      | Except.ok v => ⟨none, v, targetFailure, 1, 1⟩
    else
      match decF resp.Body with
      | Except.error err =>
        ⟨some (DoError.localE ⟨"can\x27t decode failure response", some err⟩),
          targetSuccess, targetFailure, 1, 1⟩
      | Except.ok v =>
        ⟨some (DoError.applicationE ⟨v⟩), targetSuccess, v, 1, 1⟩

/-- `client.Client.Do`: build the request (a failure is returned as-is, with
no transport call), then run the exchange. -/
def Client.Do (c : Client β) (enc : γ → Except String String)
    (decS : β → Except String σ) (decF : β → Except String φ)
    (method path : String) (query : List (String × String)) (body : Option γ)
    (targetSuccess : σ) (targetFailure : φ) : DoResult σ φ :=
  match c.newRequest enc method path query body with
  | Except.error err => ⟨some (DoError.localE err), targetSuccess, targetFailure, 0, 0⟩
  | Except.ok req => c.doExchange decS decF req targetSuccess targetFailure

namespace Notion

/-- `notion.ApiServerError` (`notion/error.go`): an error returned by the
Notion API server; only `Code` and `Message` come from the JSON body, the
status code is filled in from the response. -/
structure ApiServerError where
  HttpStatusCode : Int
  Code : String
  Message : String
  deriving DecidableEq, Repr

/-- `notion.parseErrorFromResponse` (`notion/error.go`): best-effort decode of
the body into the JSON fields of an `ApiServerError` (a failed decode is only
logged and leaves the fields at their zero values), then the status code of
the response is recorded. The body decoder yields the `(Code, Message)` pair
when the body is valid JSON of that shape, and `none` otherwise. -/
def parseErrorFromResponse (decApiErr : β → Option (String × String))
    (resp : Response β) : ApiServerError :=
  let d := (decApiErr resp.Body).getD ("", "")
  ⟨resp.StatusCode, d.1, d.2⟩

/-- `notion.ApplicationError` (error kinds snapshot in the notion package):
an application-layer error carrying the observed status code and the decoded
`code`/`message` fields. -/
structure ApplicationError where
  HttpStatusCode : Int
  Code : String
  Message : String
  deriving DecidableEq, Repr

/-- The dynamic type of the `error` returned by `notion.decodeResponse`. -/
inductive NotionError where
  | applicationE : ApplicationError → NotionError
  | clientE : LocalError → NotionError
  deriving DecidableEq, Repr

/-- `notion.decodeResponse` (`notion/notion.go`): for a status at least 300,
best-effort decode of the body into an `ApplicationError` (a decode failure is
only logged, leaving `Code`/`Message` at zero values), the observed status
code is recorded, and the `ApplicationError` is returned; for a status below
300 the body is decoded into the target (failure ⇒ `ClientError` with reason
"can't parse the response"). Returns the error (or none) and the final target
value. -/
def decodeResponse (decErr : β → Option (String × String))
    (decTarget : β → Except String τ) (resp : Response β) (target : τ) :
    Option NotionError × τ :=
  if 300 ≤ resp.StatusCode then
    let d := (decErr resp.Body).getD ("", "")
    (some (NotionError.applicationE ⟨resp.StatusCode, d.1, d.2⟩), target)
  else
    match decTarget resp.Body with
    | Except.error e =>
      (some (NotionError.clientE ⟨"can\x27t parse the response", some e⟩), target)
    | Except.ok v => (none, v)

end Notion

/-! Concrete instances used to evaluate the pipeline on explicit inputs:
a deterministic stub transport (as in the repository's mock `RoundTripper`),
identity coders for string bodies, and an always-failing decoder standing for
`json.Decode` on a body that is not valid JSON. -/

/-- A stub transport answering every request with status `s` and body `b`. -/
def okTransport (s : Int) (b : String) : Request → Except String (Response String) :=
  fun _ => Except.ok ⟨s, b⟩

/-- A stub transport failing every exchange with cause `e`. -/
def failTransport (e : String) : Request → Except String (Response String) :=
  fun _ => Except.error e

/-- Decoder for a string target that accepts any body as-is. -/
def idDec : String → Except String String := fun b => Except.ok b

/-- Decoder standing for `json.Decode` on a non-JSON body: always fails. -/
def failDec (e : String) : String → Except String String := fun _ => Except.error e

/-- Encoder for string bodies that never fails. -/
def strEnc : String → Except String String := fun s => Except.ok s

/-- A client over a given stub transport, rooted at an example URL. -/
def exClient (t : Request → Except String (Response String)) : Client String :=
  ⟨t, ⟨"https://api.example.com"⟩⟩

/-- A fixed request, for exercising `Client.doExchange` directly. -/
def exRequest : Request := ⟨"GET", "https://api.example.com/p", "", [], none⟩

/-- The `client.Client.do` classification pipeline run against a response of
status `s` with body `"B"`, with always-succeeding decoders, starting from
targets `"S0"`/`"F0"`. -/
def clientStatusRun (s : Int) : DoResult String String :=
  Client.doExchange (exClient (okTransport s "B")) idDec idDec exRequest "S0" "F0"

/-- The `notion.decodeResponse` classification pipeline run against a response
of status `s` with body `"B"`, with an always-succeeding target decoder and a
failure-shape decoder that never matches, starting from target `"T0"`. -/
def notionStatusRun (s : Int) : Option Notion.NotionError × String :=
  Notion.decodeResponse (fun _ => none) (fun b => Except.ok b) ⟨s, "B"⟩ "T0"

/-! ## Theorems -/

/-- C3: for every `Client.Do` call whose response has status `S ≤ 300`
(the boundary `S = 300` included) and a body the success decoder accepts,
the call returns nil, the success target is populated exactly with the decoded
body, and the failure target keeps the value the caller supplied (its zero
value in the repository, where callers pass fresh zero structs). -/
theorem c3_success_decodes_into_success_target
    (c : Client β) (enc : γ → Except String String)
    (decS : β → Except String σ) (decF : β → Except String φ)
    (method path : String) (query : List (String × String)) (body : Option γ)
    (ts : σ) (tf : φ) (req : Request) (resp : Response β) (v : σ)
    (hreq : c.newRequest enc method path query body = Except.ok req)
    (htr : c.httpClient req = Except.ok resp)
    (hst : resp.StatusCode ≤ 300)
    (hdec : decS resp.Body = Except.ok v) :
    c.Do enc decS decF method path query body ts tf = ⟨none, v, tf, 1, 1⟩ := by
  unfold Client.Do Client.doExchange
  simp [hreq, htr, hst, hdec]

/-- Witness for C3, at the inclusive boundary status 300. -/
theorem c3_witness :
    (exClient (okTransport 300 "yes")).Do strEnc idDec idDec "GET" "/p"
      ([] : List (String × String)) (none : Option String) "s0" "f0" =
      ⟨none, "yes", "f0", 1, 1⟩ :=
  c3_success_decodes_into_success_target (exClient (okTransport 300 "yes"))
    strEnc idDec idDec "GET" "/p" [] none "s0" "f0"
    ⟨"GET", "https://api.example.com/p", "", [], some "null"⟩ ⟨300, "yes"⟩ "yes"
    rfl rfl (by decide) rfl

/-- C5: for every `Client.Do` call in which the transport fails to obtain any
response, the call returns a Transport error wrapping the underlying cause and
naming the attempted URL (`r.URL.String()`), and neither target is mutated. -/
theorem c5_transport_failure_returns_transport_error
    (c : Client β) (enc : γ → Except String String)
    (decS : β → Except String σ) (decF : β → Except String φ)
    (method path : String) (query : List (String × String)) (body : Option γ)
    (ts : σ) (tf : φ) (req : Request) (e : String)
    (hreq : c.newRequest enc method path query body = Except.ok req)
    (htr : c.httpClient req = Except.error e) :
    c.Do enc decS decF method path query body ts tf =
      ⟨some (DoError.transportE ⟨req.urlString, e⟩), ts, tf, 1, 0⟩ := by
  unfold Client.Do Client.doExchange
  simp [hreq, htr]

/-- Witness for C5. -/
theorem c5_witness :
    (exClient (failTransport "connection error")).Do strEnc idDec idDec "GET" "/p"
      ([] : List (String × String)) (none : Option String) "s0" "f0" =
      ⟨some (DoError.transportE ⟨"https://api.example.com/p", "connection error"⟩),
        "s0", "f0", 1, 0⟩ :=
  c5_transport_failure_returns_transport_error (exClient (failTransport "connection error"))
    strEnc idDec idDec "GET" "/p" [] none "s0" "f0"
    ⟨"GET", "https://api.example.com/p", "", [], some "null"⟩ "connection error"
    rfl rfl

/-- C8: for every `Client.Do` call whose response has status `S ≤ 300` but
whose body the success decoder rejects, the call returns a Local error with
reason "can't decode successful response" wrapping the decode cause. -/
theorem c8_success_decode_failure_is_local_error
    (c : Client β) (enc : γ → Except String String)
    (decS : β → Except String σ) (decF : β → Except String φ)
    (method path : String) (query : List (String × String)) (body : Option γ)
    (ts : σ) (tf : φ) (req : Request) (resp : Response β) (e : String)
    (hreq : c.newRequest enc method path query body = Except.ok req)
    (htr : c.httpClient req = Except.ok resp)
    (hst : resp.StatusCode ≤ 300)
    (hdec : decS resp.Body = Except.error e) :
    c.Do enc decS decF method path query body ts tf =
      ⟨some (DoError.localE ⟨"can\x27t decode successful response", some e⟩),
        ts, tf, 1, 1⟩ := by
  unfold Client.Do Client.doExchange
  simp [hreq, htr, hst, hdec]

/-- Witness for C8: a status-200 response whose body is not valid JSON. -/
theorem c8_witness :
    (exClient (okTransport 200 "#yolo")).Do strEnc
      (failDec "invalid character") idDec "GET" "/p"
      ([] : List (String × String)) (none : Option String) "s0" "f0" =
      ⟨some (DoError.localE ⟨"can\x27t decode successful response",
        some "invalid character"⟩), "s0", "f0", 1, 1⟩ :=
  c8_success_decode_failure_is_local_error (exClient (okTransport 200 "#yolo"))
    strEnc (failDec "invalid character") idDec "GET" "/p" [] none "s0" "f0"
    ⟨"GET", "https://api.example.com/p", "", [], some "null"⟩ ⟨200, "#yolo"⟩
    "invalid character" rfl rfl (by decide) rfl

/-- C1 counterexample: a status-500 response whose body is not valid JSON makes
`Client.Do` return a Local error (reason "can't decode failure response"), not
an Application error carrying the status code, refuting the claim at this
concrete input. -/
theorem c1_counterexample :
    ((exClient (okTransport 500 "#yolo")).Do strEnc idDec
      (failDec "invalid character") "GET" "/p"
      ([] : List (String × String)) (none : Option String) "s0" "f0").err =
      some (DoError.localE ⟨"can\x27t decode failure response",
        some "invalid character"⟩) := rfl

/-- C1 amended: in `client.Client.Do`, a response with status `S > 300` whose
body the failure decoder rejects yields a Local error wrapping the decode
cause, with both targets left untouched; the behavior the claim describes —
classification proceeding with a zero-value failure target plus the observed
status code `S` — is that of `notion.parseErrorFromResponse`, which on the
same response returns an `ApiServerError` with `HttpStatusCode = S` and
zero-valued `Code`/`Message` when the body does not decode. -/
theorem c1_amended_failure_decode
    (c : Client β) (enc : γ → Except String String)
    (decS : β → Except String σ) (decF : β → Except String φ)
    (method path : String) (query : List (String × String)) (body : Option γ)
    (ts : σ) (tf : φ) (req : Request) (resp : Response β) (e : String)
    (decApiErr : β → Option (String × String))
    (hreq : c.newRequest enc method path query body = Except.ok req)
    (htr : c.httpClient req = Except.ok resp)
    (hst : 300 < resp.StatusCode)
    (hdec : decF resp.Body = Except.error e)
    (hnotion : decApiErr resp.Body = none) :
    c.Do enc decS decF method path query body ts tf =
      ⟨some (DoError.localE ⟨"can\x27t decode failure response", some e⟩),
        ts, tf, 1, 1⟩ ∧
    Notion.parseErrorFromResponse decApiErr resp = ⟨resp.StatusCode, "", ""⟩ := by
  constructor
  · unfold Client.Do Client.doExchange
    simp [hreq, htr, hdec, not_le.mpr hst]
  · unfold Notion.parseErrorFromResponse
    simp [hnotion]

/-- Witness for the amended C1, at status 503 with a non-JSON body. -/
theorem c1_amended_witness :
    (exClient (okTransport 503 "#yolo")).Do strEnc idDec
      (failDec "invalid character") "GET" "/p"
      ([] : List (String × String)) (none : Option String) "s0" "f0" =
      ⟨some (DoError.localE ⟨"can\x27t decode failure response",
        some "invalid character"⟩), "s0", "f0", 1, 1⟩ ∧
    Notion.parseErrorFromResponse (fun _ => none)
      (⟨503, "#yolo"⟩ : Response String) = ⟨503, "", ""⟩ :=
  c1_amended_failure_decode (exClient (okTransport 503 "#yolo")) strEnc idDec
    (failDec "invalid character") "GET" "/p" [] none "s0" "f0"
    ⟨"GET", "https://api.example.com/p", "", [], some "null"⟩ ⟨503, "#yolo"⟩
    "invalid character" (fun _ => none) rfl rfl (by decide) rfl rfl

/-- C2 counterexample: `client.ApplicationError` wraps only the failure target
and records no status code — two calls differing only in the failure status
(404 versus 500) return identical errors, so the returned Application error
cannot equal or expose the observed status code `S`. -/
theorem c2_counterexample :
    ((exClient (okTransport 404 "{}")).Do strEnc idDec idDec "GET" "/p"
      ([] : List (String × String)) (none : Option String) "s0" "f0").err =
      ((exClient (okTransport 500 "{}")).Do strEnc idDec idDec "GET" "/p"
        ([] : List (String × String)) (none : Option String) "s0" "f0").err ∧
    ((exClient (okTransport 404 "{}")).Do strEnc idDec idDec "GET" "/p"
      ([] : List (String × String)) (none : Option String) "s0" "f0").err =
      some (DoError.applicationE ⟨"{}"⟩) :=
  ⟨rfl, rfl⟩

/-- C2 amended: for every `Client.Do` call whose response has status `S > 300`
and a body the failure decoder accepts, the call returns an Application error
exposing the decoded failure payload (it wraps the failure target, which is
populated with the decoded body); the status code is not recorded in the
error — status-code exposure exists only in the notion-package
`ApplicationError` returned by `notion.decodeResponse`. -/
theorem c2_amended_application_error_exposes_payload
    (c : Client β) (enc : γ → Except String String)
    (decS : β → Except String σ) (decF : β → Except String φ)
    (method path : String) (query : List (String × String)) (body : Option γ)
    (ts : σ) (tf : φ) (req : Request) (resp : Response β) (v : φ)
    (hreq : c.newRequest enc method path query body = Except.ok req)
    (htr : c.httpClient req = Except.ok resp)
    (hst : 300 < resp.StatusCode)
    (hdec : decF resp.Body = Except.ok v) :
    c.Do enc decS decF method path query body ts tf =
      ⟨some (DoError.applicationE ⟨v⟩), ts, v, 1, 1⟩ := by
  unfold Client.Do Client.doExchange
  simp [hreq, htr, hdec, not_le.mpr hst]

/-- Witness for the amended C2. -/
theorem c2_amended_witness :
    (exClient (okTransport 500 "internal server error")).Do strEnc idDec idDec
      "GET" "/p" ([] : List (String × String)) (none : Option String) "s0" "f0" =
      ⟨some (DoError.applicationE ⟨"internal server error"⟩),
        "s0", "internal server error", 1, 1⟩ :=
  c2_amended_application_error_exposes_payload
    (exClient (okTransport 500 "internal server error")) strEnc idDec idDec
    "GET" "/p" [] none "s0" "f0"
    ⟨"GET", "https://api.example.com/p", "", [], some "null"⟩
    ⟨500, "internal server error"⟩ "internal server error"
    rfl rfl (by decide) rfl

/-- C6: for every `Client.Do` call whose method string contains a character
illegal in an HTTP method token (and whose body encodes, so that the method
check is reached), the call returns a Local error with reason "failed to
create GET request" wrapping the `net/http` invalid-method failure, and the
transport capability is never invoked (`transportCalls = 0`). -/
theorem c6_invalid_method_is_local_error_no_transport
    (c : Client β) (enc : γ → Except String String)
    (decS : β → Except String σ) (decF : β → Except String φ)
    (method path : String) (query : List (String × String)) (body : Option γ)
    (ts : σ) (tf : φ) (bs : String) (ch : Char)
    (hch : ch ∈ method.data) (hbad : isTokenChar ch = false)
    (henc : jsonMarshal enc body = Except.ok bs) :
    c.Do enc decS decF method path query body ts tf =
      ⟨some (DoError.localE ⟨"failed to create GET request",
        some ("net/http: invalid method " ++ goQuote method)⟩), ts, tf, 0, 0⟩ := by
  have hne : method ≠ "" := by
    intro h
    rw [h] at hch
    exact absurd hch (List.not_mem_nil ch)
  have hval : validMethod method = false := by
    unfold validMethod
    have : method.data.all isTokenChar = false := by
      rw [List.all_eq_false]
      exact ⟨ch, hch, by simp [hbad]⟩
    simp [this]
  unfold Client.Do Client.newRequest Client.encode httpNewRequest
  simp [henc, if_neg hne, hval]

/-- Witness for C6: the repository test's method "🦄" (its character is not a
token character). -/
theorem c6_witness :
    (exClient (okTransport 200 "{}")).Do strEnc idDec idDec "🦄" "/p"
      ([] : List (String × String)) (none : Option String) "s0" "f0" =
      ⟨some (DoError.localE ⟨"failed to create GET request",
        some ("net/http: invalid method " ++ goQuote "🦄")⟩), "s0", "f0", 0, 0⟩ :=
  c6_invalid_method_is_local_error_no_transport (exClient (okTransport 200 "{}"))
    strEnc idDec idDec "🦄" "/p" [] none "s0" "f0" "null" (Char.ofNat 129412)
    (by decide) (by decide) rfl

/-- C4 counterexample: with an absent (nil) body, `Client.newRequest` still
produces a request whose body is the four-byte JSON literal `null` (because
`Client.encode` always runs `json.Marshal`, and `json.Marshal(nil)` yields
`null`), refuting "the outbound HTTP request carries no body". The header
list is empty, so the no-Content-Type half of the claim does hold here. -/
theorem c4_counterexample :
    (exClient (okTransport 200 "{}")).newRequest strEnc "GET" "/p"
      ([] : List (String × String)) (none : Option String) =
      Except.ok ⟨"GET", "https://api.example.com/p", "", [], some "null"⟩ := rfl

/-- Characterization of a successful `Client.newRequest`: when the body
marshals and the (GET-defaulted) method is valid, the built request has the
root-plus-path URL, the sorted-and-escaped query as `RawQuery` when the query
is nonempty, the Content-Type header exactly when a body was supplied, and
the marshalled bytes as its body. -/
theorem newRequest_ok_eq (c : Client β) (enc : γ → Except String String)
    (method path : String) (query : List (String × String)) (body : Option γ)
    (bs : String)
    (henc : jsonMarshal enc body = Except.ok bs)
    (hv : validMethod (if method = "" then "GET" else method) = true) :
    c.newRequest enc method path query body = Except.ok
      { Method := if method = "" then "GET" else method,
        URL := c.opts.RootURL ++ path,
        RawQuery := if query.length > 0 then urlValuesEncode query else "",
        Header := if body.isSome then [("Content-Type", "application/json")] else [],
        Body := some bs } := by
  unfold Client.newRequest Client.encode httpNewRequest
  rw [henc]
  cases body with
  | none => by_cases hq : query.length > 0 <;> simp [hv, hq]
  | some v => by_cases hq : query.length > 0 <;> simp [hv, hq]

/-- C4 amended: with an absent (nil) body the outbound request carries the
JSON literal `null` as its body and no Content-Type header (the header list
stays empty); with a body supplied, the request carries its JSON serialization
and exactly the `Content-Type: application/json` header. -/
theorem c4_amended_body_and_content_type
    (c : Client β) (enc : γ → Except String String)
    (method path : String) (query : List (String × String))
    (v : γ) (s : String)
    (henc : enc v = Except.ok s)
    (hv : validMethod (if method = "" then "GET" else method) = true) :
    c.newRequest enc method path query (none : Option γ) = Except.ok
      { Method := if method = "" then "GET" else method,
        URL := c.opts.RootURL ++ path,
        RawQuery := if query.length > 0 then urlValuesEncode query else "",
        Header := [],
        Body := some "null" } ∧
    c.newRequest enc method path query (some v) = Except.ok
      { Method := if method = "" then "GET" else method,
        URL := c.opts.RootURL ++ path,
        RawQuery := if query.length > 0 then urlValuesEncode query else "",
        Header := [("Content-Type", "application/json")],
        Body := some s } := by
  constructor
  · have h := newRequest_ok_eq c enc method path query (none : Option γ) "null" rfl hv
    simpa using h
  · have h := newRequest_ok_eq c enc method path query (some v) s
      (by simpa [jsonMarshal] using henc) hv
    simpa using h

/-- Witness for the amended C4. -/
theorem c4_amended_witness :
    (exClient (okTransport 200 "{}")).newRequest strEnc "GET" "/p"
      ([] : List (String × String)) (none : Option String) = Except.ok
      { Method := if "GET" = "" then "GET" else "GET",
        URL := (exClient (okTransport 200 "{}")).opts.RootURL ++ "/p",
        RawQuery := if ([] : List (String × String)).length > 0 then
          urlValuesEncode [] else "",
        Header := [],
        Body := some "null" } ∧
    (exClient (okTransport 200 "{}")).newRequest strEnc "GET" "/p"
      ([] : List (String × String)) (some "{}") = Except.ok
      { Method := if "GET" = "" then "GET" else "GET",
        URL := (exClient (okTransport 200 "{}")).opts.RootURL ++ "/p",
        RawQuery := if ([] : List (String × String)).length > 0 then
          urlValuesEncode [] else "",
        Header := [("Content-Type", "application/json")],
        Body := some "{}" } :=
  c4_amended_body_and_content_type (exClient (okTransport 200 "{}")) strEnc
    "GET" "/p" [] "{}" "{}" rfl (by decide)

/-- C7 counterexample: on a transport failure, a `Client.Do` call runs zero
decode paths (the claimed "exactly one decode path executes per call" fails),
even though the call completes with a Transport error. -/
theorem c7_counterexample :
    ((exClient (failTransport "connection error")).Do strEnc idDec idDec "GET"
      "/p" ([] : List (String × String)) (none : Option String)
      "s0" "f0").decodeCalls = 0 ∧
    ((exClient (failTransport "connection error")).Do strEnc idDec idDec "GET"
      "/p" ([] : List (String × String)) (none : Option String) "s0" "f0").err =
      some (DoError.transportE ⟨"https://api.example.com/p",
        "connection error"⟩) :=
  ⟨rfl, rfl⟩

/-- C7 amended: on every `Client.Do` call at most one of the two targets is
populated (the success target keeps its initial value, or the failure target
does), at most one decode path executes, and exactly one decode path executes
whenever a response is obtained; when request construction or the transport
fails, no decode path executes. -/
theorem c7_amended_at_most_one_target
    (c : Client β) (enc : γ → Except String String)
    (decS : β → Except String σ) (decF : β → Except String φ)
    (method path : String) (query : List (String × String)) (body : Option γ)
    (ts : σ) (tf : φ) (req : Request) (resp : Response β) :
    ((c.Do enc decS decF method path query body ts tf).targetSuccess = ts ∨
      (c.Do enc decS decF method path query body ts tf).targetFailure = tf) ∧
    (c.Do enc decS decF method path query body ts tf).decodeCalls ≤ 1 ∧
    (c.newRequest enc method path query body = Except.ok req →
      c.httpClient req = Except.ok resp →
      (c.Do enc decS decF method path query body ts tf).decodeCalls = 1) := by
  cases hreq : c.newRequest enc method path query body with
  | error e =>
    refine ⟨Or.inl ?_, ?_, fun hh _ => ?_⟩
    · simp [Client.Do, hreq]
    · simp [Client.Do, hreq]
    · exact absurd hh (by simp)
  | ok req2 =>
    cases htr : c.httpClient req2 with
    | error e =>
      refine ⟨Or.inl ?_, ?_, fun hh htr2 => ?_⟩
      · simp [Client.Do, Client.doExchange, hreq, htr]
      · simp [Client.Do, Client.doExchange, hreq, htr]
      · injection hh with hh2
        subst hh2
        rw [htr] at htr2
        exact absurd htr2 (by simp)
    | ok resp2 =>
      have hdc : (c.Do enc decS decF method path query body ts tf).decodeCalls = 1 := by
        by_cases hst : resp2.StatusCode ≤ 300
        · cases hdec : decS resp2.Body with
          | error e2 => simp [Client.Do, Client.doExchange, hreq, htr, hst, hdec]
          | ok v => simp [Client.Do, Client.doExchange, hreq, htr, hst, hdec]
        · cases hdec : decF resp2.Body with
          | error e2 => simp [Client.Do, Client.doExchange, hreq, htr, hst, hdec]
          | ok v => simp [Client.Do, Client.doExchange, hreq, htr, hst, hdec]
      refine ⟨?_, le_of_eq hdc, fun _ _ => hdc⟩
      by_cases hst : resp2.StatusCode ≤ 300
      · cases hdec : decS resp2.Body with
        | error e2 =>
          exact Or.inl (by simp [Client.Do, Client.doExchange, hreq, htr, hst, hdec])
        | ok v =>
          exact Or.inr (by simp [Client.Do, Client.doExchange, hreq, htr, hst, hdec])
      · cases hdec : decF resp2.Body with
        | error e2 =>
          exact Or.inl (by simp [Client.Do, Client.doExchange, hreq, htr, hst, hdec])
        | ok v =>
          exact Or.inl (by simp [Client.Do, Client.doExchange, hreq, htr, hst, hdec])

/-- Witness for the amended C7, at a successful status-200 exchange. -/
theorem c7_amended_witness :
    (((exClient (okTransport 200 "yes")).Do strEnc idDec idDec "GET" "/p"
      ([] : List (String × String)) (none : Option String)
      "s0" "f0").targetSuccess = "s0" ∨
      ((exClient (okTransport 200 "yes")).Do strEnc idDec idDec "GET" "/p"
        ([] : List (String × String)) (none : Option String)
        "s0" "f0").targetFailure = "f0") ∧
    ((exClient (okTransport 200 "yes")).Do strEnc idDec idDec "GET" "/p"
      ([] : List (String × String)) (none : Option String)
      "s0" "f0").decodeCalls ≤ 1 ∧
    ((exClient (okTransport 200 "yes")).newRequest strEnc "GET" "/p" [] none =
        Except.ok ⟨"GET", "https://api.example.com/p", "", [], some "null"⟩ →
      (exClient (okTransport 200 "yes")).httpClient
        ⟨"GET", "https://api.example.com/p", "", [], some "null"⟩ =
        Except.ok ⟨200, "yes"⟩ →
      ((exClient (okTransport 200 "yes")).Do strEnc idDec idDec "GET" "/p"
        ([] : List (String × String)) (none : Option String)
        "s0" "f0").decodeCalls = 1) :=
  c7_amended_at_most_one_target (exClient (okTransport 200 "yes")) strEnc
    idDec idDec "GET" "/p" [] none "s0" "f0"
    ⟨"GET", "https://api.example.com/p", "", [], some "null"⟩ ⟨200, "yes"⟩

/-- C10: the two response classifiers disagree at status exactly 300 —
`client.Client.do` treats a 300 response as success (`StatusCode <= 300`
branch: no error, the body is decoded into the success target) while
`notion.decodeResponse` treats it as an application failure
(`StatusCode >= 300` branch: an `ApplicationError` with status 300 is
returned) — and at every other status the two agree on success versus
failure. -/
theorem c10_classifiers_agree_except_at_300 (s : Int) (hs : s ≠ 300) :
    ((clientStatusRun 300).err = none ∧
      (clientStatusRun 300).targetSuccess = "B") ∧
    (notionStatusRun 300).1 =
      some (Notion.NotionError.applicationE ⟨300, "", ""⟩) ∧
    ((clientStatusRun s).err = none ↔ (notionStatusRun s).1 = none) := by
  refine ⟨⟨rfl, rfl⟩, rfl, ?_⟩
  by_cases h : s ≤ 300
  · have h2 : ¬ (300 ≤ s) := by omega
    simp [clientStatusRun, notionStatusRun, Client.doExchange, Notion.decodeResponse,
      exClient, okTransport, idDec, h, h2]
  · have h2 : 300 ≤ s := by omega
    simp [clientStatusRun, notionStatusRun, Client.doExchange, Notion.decodeResponse,
      exClient, okTransport, idDec, h, h2]

/-- A list sorted by key order whose keys are pairwise distinct is sorted by
strict key order. -/
theorem sorted_keyLt_of_nodup_keys {l : List (String × String)}
    (hs : List.Sorted keyLe l) (hnd : (l.map Prod.fst).Nodup) :
    List.Sorted keyLt l := by
  have hne : l.Pairwise (fun p q : String × String => p.1 ≠ q.1) :=
    List.pairwise_map.mp hnd
  exact (hs.and hne).imp fun h => lt_of_le_of_ne h.1 h.2

/-- Sorting by key is insensitive to the input order when the keys are
pairwise distinct — the iteration order of the Go query map cannot influence
the sorted pair list that `url.Values.Encode` walks. -/
theorem insertionSort_keyLe_eq_of_perm {q₁ q₂ : List (String × String)}
    (hp : q₁.Perm q₂) (hnd : (q₁.map Prod.fst).Nodup) :
    List.insertionSort keyLe q₁ = List.insertionSort keyLe q₂ := by
  have hperm : (List.insertionSort keyLe q₁).Perm (List.insertionSort keyLe q₂) :=
    (List.perm_insertionSort keyLe q₁).trans
      (hp.trans (List.perm_insertionSort keyLe q₂).symm)
  have hnd₁ : ((List.insertionSort keyLe q₁).map Prod.fst).Nodup :=
    (((List.perm_insertionSort keyLe q₁).map Prod.fst).nodup_iff).mpr hnd
  have hnd₂ : ((List.insertionSort keyLe q₂).map Prod.fst).Nodup :=
    (((List.perm_insertionSort keyLe q₂).map Prod.fst).nodup_iff).mpr
      ((hp.map Prod.fst).nodup_iff.mp hnd)
  exact List.eq_of_perm_of_sorted hperm
    (sorted_keyLt_of_nodup_keys (List.sorted_insertionSort keyLe q₁) hnd₁)
    (sorted_keyLt_of_nodup_keys (List.sorted_insertionSort keyLe q₂) hnd₂)

/-- C9: the outbound request built by `Client.newRequest` is the same for any
two iteration orders of the query mapping (keys are unique by construction in
a Go map), every key=value pair of the mapping appears URL-encoded among the
components of the encoded query, and the encoded query carried by the request
is exactly those components joined with `&`. -/
theorem c9_query_encoding_order_independent
    (c : Client β) (enc : γ → Except String String)
    (method path : String) (body : Option γ)
    (q₁ q₂ : List (String × String)) (kv : String × String)
    (hp : q₁.Perm q₂) (hnd : (q₁.map Prod.fst).Nodup) (hkv : kv ∈ q₁) :
    c.newRequest enc method path q₁ body = c.newRequest enc method path q₂ body ∧
    (queryEscape kv.1 ++ "=" ++ queryEscape kv.2) ∈ queryComponents q₁ ∧
    urlValuesEncode q₁ = String.intercalate "&" (queryComponents q₁) := by
  refine ⟨?_, List.mem_map.mpr ⟨kv, by simpa using hkv, rfl⟩, rfl⟩
  have hlen : q₁.length = q₂.length := hp.length_eq
  have hu : urlValuesEncode q₁ = urlValuesEncode q₂ := by
    unfold urlValuesEncode queryComponents
    rw [insertionSort_keyLe_eq_of_perm hp hnd]
  unfold Client.newRequest
  simp only [hlen, hu]

/-- Witness for C9: the two iteration orders of the mapping
{"b" ↦ "2 b", "a" ↦ "1"}; note the escaping of the space and the sorted key
order in the components. -/
theorem c9_witness :
    (exClient (okTransport 200 "{}")).newRequest strEnc "GET" "/p"
      [("b", "2 b"), ("a", "1")] (none : Option String) =
      (exClient (okTransport 200 "{}")).newRequest strEnc "GET" "/p"
        [("a", "1"), ("b", "2 b")] (none : Option String) ∧
    (queryEscape "b" ++ "=" ++ queryEscape "2 b") ∈
      queryComponents [("b", "2 b"), ("a", "1")] ∧
    urlValuesEncode [("b", "2 b"), ("a", "1")] =
      String.intercalate "&" (queryComponents [("b", "2 b"), ("a", "1")]) :=
  c9_query_encoding_order_independent (exClient (okTransport 200 "{}")) strEnc
    "GET" "/p" none [("b", "2 b"), ("a", "1")] [("a", "1"), ("b", "2 b")]
    ("b", "2 b") (by decide) (by decide) (by decide)

/-- Witness for C10, at status 200. -/
theorem c10_witness :
    (((clientStatusRun 300).err = none ∧
      (clientStatusRun 300).targetSuccess = "B") ∧
    (notionStatusRun 300).1 =
      some (Notion.NotionError.applicationE ⟨300, "", ""⟩) ∧
    ((clientStatusRun 200).err = none ↔ (notionStatusRun 200).1 = none)) :=
  c10_classifiers_agree_except_at_300 200 (by decide)

end NotionGo
